import Mathlib

/-!
# Verification of the genkitx-mongodb Bounded Retry Executor and tool references

The repository's only piece of procedural logic is a bounded retry executor
with exponential backoff and jitter, described in the specification, plus
two helper functions producing tool-reference name lists, described in the
usage documentation.  The executor's implementation file is not among the
sources available here, so the executor is modelled faithfully from the
specification's algorithm, delay formula and configuration surface; the
tool-reference helpers are modelled from the documented return values.

Delays are modelled as exact rational numbers of milliseconds.  The jitter
randomness is modelled as a function `u : Nat → ℚ` giving, for each retry
index, the uniform draw scaled to `[-1, 1]`: the multiplicative jitter
factor applied at retry index `n` is `1 + clampJitter jitterFactor * u n`,
which ranges over `[1 - jitterFactor, 1 + jitterFactor]` exactly when
`u n` ranges over `[-1, 1]`.
-/

/-- Modelled from the spec: the configuration surface consumed by the retry
executor — `retryAttempts`, `baseDelay` and `jitterFactor`, all optional. -/
structure RetryOptions where
  retryAttempts : Option Nat
  baseDelay : Option ℚ
  jitterFactor : Option ℚ
deriving Repr, DecidableEq

/-- Modelled from the spec: the resolved retry policy, every field filled. -/
structure RetryPolicy where
  retryAttempts : Nat
  baseDelay : ℚ
  jitterFactor : ℚ
deriving Repr, DecidableEq

/-- Modelled from the spec: defaults are filled in at construction —
`retryAttempts` 0, `baseDelay` 1000 ms, `jitterFactor` 0.1. -/
def resolveRetryPolicy (o : RetryOptions) : RetryPolicy :=
  { retryAttempts := o.retryAttempts.getD 0
    baseDelay := o.baseDelay.getD 1000
    jitterFactor := o.jitterFactor.getD (1 / 10) }

/-- Modelled from the spec: the jitter factor is clamped to `[0, 1]`
defensively before use, even if a caller supplies an out-of-range value. -/
def clampJitter (j : ℚ) : ℚ := max 0 (min 1 j)

/-- Modelled from the spec: the delay before the retry with 0-based index
`n` is the exponential base delay `baseDelay * 2 ^ n` multiplied by a
jitter factor in `[1 - jitterFactor, 1 + jitterFactor]`, realised here as
`1 + clampJitter jitterFactor * u n` for the scaled uniform draw `u n`. -/
def jitteredDelay (p : RetryPolicy) (u : Nat → ℚ) (n : Nat) : ℚ :=
  p.baseDelay * 2 ^ n * (1 + clampJitter p.jitterFactor * u n)

/-- Observable trace of one executor run: the final outcome, how many times
the wrapped operation was invoked, and the delays waited between attempts. -/
structure RetryTrace (ε α : Type) where
  result : Except ε α
  invocations : Nat
  delays : List ℚ
deriving Repr

/-- Modelled from the spec: the retry loop.  `n` is the current 0-based
attempt index and `remaining` the number of retries still allowed
(`remaining = retryAttempts - n`).  Invoke the operation; on success return
immediately; on failure, if no retries remain propagate the failure,
otherwise wait the jittered delay for the current index and recurse. -/
def retryAux (p : RetryPolicy) (op : Nat → Except ε α) (u : Nat → ℚ) :
    Nat → Nat → RetryTrace ε α
  | n, 0 => ⟨op n, 1, []⟩
  | n, remaining + 1 =>
    match op n with
    | Except.ok a => ⟨Except.ok a, 1, []⟩
    | Except.error _ =>
      let rest := retryAux p op u (n + 1) remaining
      ⟨rest.result, rest.invocations + 1, jitteredDelay p u n :: rest.delays⟩

/-- Modelled from the spec: the Bounded Retry Executor.  The wrapped
operation is modelled extensionally as `op : Nat → Except ε α`, giving the
outcome of its `k`-th invocation (0-based). -/
def boundedRetry (p : RetryPolicy) (op : Nat → Except ε α) (u : Nat → ℚ) :
    RetryTrace ε α :=
  retryAux p op u 0 p.retryAttempts

/-- Modelled from the spec: the outcome of a cancellable executor run —
the operation's success value, the final failure, or the cancellation
signal propagated from a wait between attempts. -/
inductive CancellableOutcome (ε α : Type) where
  | ok (a : α)
  | failed (e : ε)
  | cancelled
deriving Repr, DecidableEq

/-- Observable trace of a cancellable run: the outcome, the number of
invocations of the wrapped operation, and the number of inter-attempt
waits that were completed in full. -/
structure CancellableTrace (ε α : Type) where
  result : CancellableOutcome ε α
  invocations : Nat
  completedWaits : Nat
deriving Repr, DecidableEq

/-- Modelled from the spec: the retry loop honouring cancellation at the
waiting-to-retry suspension point.  `cancel n = true` means cancellation
is requested while the executor is suspended in the wait that follows
failed attempt `n`; the executor then stops waiting — the wait is not
completed — invokes nothing further, and propagates the cancellation
signal immediately. -/
def retryAuxCancel (p : RetryPolicy) (op : Nat → Except ε α)
    (cancel : Nat → Bool) : Nat → Nat → CancellableTrace ε α
  | n, 0 =>
    match op n with
    | Except.ok a => ⟨CancellableOutcome.ok a, 1, 0⟩
    | Except.error e => ⟨CancellableOutcome.failed e, 1, 0⟩
  | n, remaining + 1 =>
    match op n with
    | Except.ok a => ⟨CancellableOutcome.ok a, 1, 0⟩
    | Except.error _ =>
      if cancel n then ⟨CancellableOutcome.cancelled, 1, 0⟩
      else
        let rest := retryAuxCancel p op cancel (n + 1) remaining
        ⟨rest.result, rest.invocations + 1, rest.completedWaits + 1⟩

/-- Modelled from the spec: the Bounded Retry Executor under a
cancellation signal, starting at attempt index 0. -/
def boundedRetryCancellable (p : RetryPolicy) (op : Nat → Except ε α)
    (cancel : Nat → Bool) : CancellableTrace ε α :=
  retryAuxCancel p op cancel 0 p.retryAttempts

/-- Modelled from the spec: a tool reference string for a connection id. -/
def mongoToolRef (id op : String) : String :=
  "mongodb/" ++ id ++ "/" ++ op

/-- Modelled from the spec: the CRUD tool references for a connection. -/
def mongoCrudToolsRefArray (id : String) : List String :=
  ["create", "read", "update", "delete"].map (mongoToolRef id)

/-- Modelled from the spec: the search-index tool references for a
connection. -/
def mongoSearchIndexToolsRefArray (id : String) : List String :=
  ["create", "list", "drop"].map (mongoToolRef id)

/-- If every attempt with index `n + k` for `k ≤ r` fails, the retry loop
started at index `n` with `r` retries remaining makes exactly `r + 1`
invocations and its result is the outcome of the final attempt, `op (n + r)`,
unmodified. -/
theorem retryAux_allFail (p : RetryPolicy) (op : Nat → Except ε α)
    (u : Nat → ℚ) (r : Nat) :
    ∀ n, (∀ k, k ≤ r → ∃ e, op (n + k) = Except.error e) →
      (retryAux p op u n r).invocations = r + 1 ∧
      (retryAux p op u n r).result = op (n + r) := by
  induction r with
  | zero => intro n _; simp [retryAux]
  | succ r ih =>
    intro n h
    obtain ⟨e, he⟩ := h 0 (Nat.zero_le _)
    rw [Nat.add_zero] at he
    have hrec := ih (n + 1) (fun k hk => by
      obtain ⟨e2, he2⟩ := h (k + 1) (Nat.succ_le_succ hk)
      exact ⟨e2, by rw [← he2]; congr 1; omega⟩)
    simp only [retryAux, he]
    refine ⟨by rw [hrec.1], ?_⟩
    rw [hrec.2]; congr 1; omega

/-- C1: for every retryAttempts = N ≥ 0 and every operation that fails on
all invocations, the Bounded Retry Executor invokes the operation exactly
N + 1 times, regardless of which error each invocation produces, and the
error it returns is the error from the final invocation. -/
theorem boundedRetry_alwaysFails_count_and_finalError
    (p : RetryPolicy) (op : Nat → Except ε α) (u : Nat → ℚ)
    (hfail : ∀ k, ∃ e, op k = Except.error e) :
    (boundedRetry p op u).invocations = p.retryAttempts + 1 ∧
    (boundedRetry p op u).result = op p.retryAttempts := by
  have h := retryAux_allFail p op u p.retryAttempts 0
    (fun k _ => by simpa using hfail k)
  simpa [boundedRetry] using h

theorem boundedRetry_alwaysFails_witness :
    (boundedRetry ⟨2, 1000, 0⟩
      (fun k => (Except.error k : Except Nat Unit))
      (fun _ => 0)).invocations = 3 ∧
    (boundedRetry ⟨2, 1000, 0⟩
      (fun k => (Except.error k : Except Nat Unit))
      (fun _ => 0)).result = Except.error 2 := by
  have h := boundedRetry_alwaysFails_count_and_finalError ⟨2, 1000, 0⟩
    (fun k => (Except.error k : Except Nat Unit)) (fun _ => 0)
    (fun k => ⟨k, rfl⟩)
  exact ⟨h.1, h.2⟩

/-- If the first `k` attempts starting at index `n` fail and attempt
`n + k` succeeds with `v`, the retry loop with `r ≥ k` retries remaining
returns `v` after exactly `k + 1` invocations. -/
theorem retryAux_failsThenSucceeds (p : RetryPolicy) (op : Nat → Except ε α)
    (u : Nat → ℚ) (v : α) (k : Nat) :
    ∀ n r, k ≤ r → (∀ i, i < k → ∃ e, op (n + i) = Except.error e) →
      op (n + k) = Except.ok v →
      (retryAux p op u n r).result = Except.ok v ∧
      (retryAux p op u n r).invocations = k + 1 := by
  induction k with
  | zero =>
    intro n r _ _ hok
    rw [Nat.add_zero] at hok
    cases r with
    | zero => simp [retryAux, hok]
    | succ r => simp [retryAux, hok]
  | succ k ih =>
    intro n r hk hfail hok
    cases r with
    | zero => omega
    | succ r =>
      obtain ⟨e, he⟩ := hfail 0 (Nat.succ_pos k)
      rw [Nat.add_zero] at he
      have hrec := ih (n + 1) r (Nat.le_of_succ_le_succ hk)
        (fun i hi => by
          obtain ⟨e2, he2⟩ := hfail (i + 1) (Nat.succ_lt_succ hi)
          exact ⟨e2, by rw [← he2]; congr 1; omega⟩)
        (by rw [← hok]; congr 1; omega)
      simp only [retryAux, he]
      exact ⟨hrec.1, by rw [hrec.2]⟩

/-- C2: for every retryAttempts = N and every operation that fails on its
first k invocations (k ≤ N) and succeeds on invocation k + 1, the Bounded
Retry Executor returns that success value and invokes the operation exactly
k + 1 times, returning on the first success with no further attempts. -/
theorem boundedRetry_failsKThenSucceeds
    (p : RetryPolicy) (op : Nat → Except ε α) (u : Nat → ℚ) (k : Nat) (v : α)
    (hk : k ≤ p.retryAttempts)
    (hfail : ∀ i, i < k → ∃ e, op i = Except.error e)
    (hok : op k = Except.ok v) :
    (boundedRetry p op u).result = Except.ok v ∧
    (boundedRetry p op u).invocations = k + 1 := by
  have h := retryAux_failsThenSucceeds p op u v k 0 p.retryAttempts hk
    (fun i hi => by simpa using hfail i hi) (by simpa using hok)
  simpa [boundedRetry] using h

theorem boundedRetry_failsKThenSucceeds_witness :
    (boundedRetry ⟨3, 1000, 0⟩
      (fun i => if i < 2 then (Except.error "transient" : Except String Nat)
                else Except.ok 7)
      (fun _ => 0)).result = Except.ok 7 ∧
    (boundedRetry ⟨3, 1000, 0⟩
      (fun i => if i < 2 then (Except.error "transient" : Except String Nat)
                else Except.ok 7)
      (fun _ => 0)).invocations = 3 := by
  have h := boundedRetry_failsKThenSucceeds ⟨3, 1000, 0⟩
    (fun i => if i < 2 then (Except.error "transient" : Except String Nat)
              else Except.ok 7)
    (fun _ => 0) 2 7 (by decide)
    (fun i hi => ⟨"transient", by simp [hi]⟩) rfl
  exact ⟨h.1, h.2⟩

/-- C3: when retryAttempts = 0, the Bounded Retry Executor invokes the
operation exactly once for every operation, waits no delay at all, and the
single invocation's outcome — failure included — propagates to the caller. -/
theorem boundedRetry_zeroAttempts
    (p : RetryPolicy) (op : Nat → Except ε α) (u : Nat → ℚ)
    (h : p.retryAttempts = 0) :
    (boundedRetry p op u).invocations = 1 ∧
    (boundedRetry p op u).delays = [] ∧
    (boundedRetry p op u).result = op 0 := by
  simp [boundedRetry, h, retryAux]

theorem boundedRetry_zeroAttempts_witness :
    (boundedRetry ⟨0, 1000, 1 / 10⟩
      (fun _ => (Except.error "down" : Except String Nat))
      (fun _ => 0)).invocations = 1 ∧
    (boundedRetry ⟨0, 1000, 1 / 10⟩
      (fun _ => (Except.error "down" : Except String Nat))
      (fun _ => 0)).delays = [] ∧
    (boundedRetry ⟨0, 1000, 1 / 10⟩
      (fun _ => (Except.error "down" : Except String Nat))
      (fun _ => 0)).result = Except.error "down" := by
  have h := boundedRetry_zeroAttempts ⟨0, 1000, 1 / 10⟩
    (fun _ => (Except.error "down" : Except String Nat)) (fun _ => 0) rfl
  exact ⟨h.1, h.2.1, h.2.2⟩

/-- C7: when all attempts are exhausted, the error surfaced to the caller
is exactly the error produced by the last failed attempt — no wrapping, no
aggregation of earlier attempts' errors, no retry-specific error type. -/
theorem boundedRetry_finalError_unmodified
    (p : RetryPolicy) (op : Nat → Except ε α) (u : Nat → ℚ) (e : Nat → ε)
    (hfail : ∀ k, k ≤ p.retryAttempts → op k = Except.error (e k)) :
    (boundedRetry p op u).result = Except.error (e p.retryAttempts) := by
  have h := retryAux_allFail p op u p.retryAttempts 0
    (fun k hk => ⟨e k, by rw [Nat.zero_add]; exact hfail k hk⟩)
  rw [boundedRetry] at *
  rw [h.2, Nat.zero_add, hfail p.retryAttempts (Nat.le_refl _)]

theorem boundedRetry_finalError_unmodified_witness :
    (boundedRetry ⟨1, 500, 1 / 5⟩
      (fun k => (Except.error (10 * k) : Except Nat Unit))
      (fun _ => 1)).result = Except.error 10 := by
  have h := boundedRetry_finalError_unmodified ⟨1, 500, 1 / 5⟩
    (fun k => (Except.error (10 * k) : Except Nat Unit)) (fun _ => 1)
    (fun k => 10 * k) (fun k _ => rfl)
  simpa using h

/-- When the configured jitter factor already lies in `[0, 1]`, the
defensive clamp leaves it unchanged. -/
theorem clampJitter_of_mem (j : ℚ) (h0 : 0 ≤ j) (h1 : j ≤ 1) :
    clampJitter j = j := by
  rw [clampJitter, min_eq_right h1, max_eq_right h0]

/-- C4: for every retry index n and every value the jitter randomness may
take, the delay between attempt n and attempt n + 1 equals
`baseDelay * 2 ^ n` multiplied by a factor in
`[1 - jitterFactor, 1 + jitterFactor]`, and hence lies within
`[baseDelay * 2 ^ n * (1 - jitterFactor), baseDelay * 2 ^ n * (1 + jitterFactor)]`. -/
theorem jitteredDelay_bounds
    (p : RetryPolicy) (u : Nat → ℚ) (n : Nat)
    (hb : 0 ≤ p.baseDelay) (hj0 : 0 ≤ p.jitterFactor)
    (hj1 : p.jitterFactor ≤ 1) (hu1 : -1 ≤ u n) (hu2 : u n ≤ 1) :
    (∃ f, jitteredDelay p u n = p.baseDelay * 2 ^ n * f ∧
      1 - p.jitterFactor ≤ f ∧ f ≤ 1 + p.jitterFactor) ∧
    p.baseDelay * 2 ^ n * (1 - p.jitterFactor) ≤ jitteredDelay p u n ∧
    jitteredDelay p u n ≤ p.baseDelay * 2 ^ n * (1 + p.jitterFactor) := by
  have hB : (0 : ℚ) ≤ p.baseDelay * 2 ^ n :=
    mul_nonneg hb (pow_nonneg (by norm_num) n)
  have hd : jitteredDelay p u n =
      p.baseDelay * 2 ^ n * (1 + p.jitterFactor * u n) := by
    rw [jitteredDelay, clampJitter_of_mem p.jitterFactor hj0 hj1]
  have hf1 : 1 - p.jitterFactor ≤ 1 + p.jitterFactor * u n := by nlinarith
  have hf2 : 1 + p.jitterFactor * u n ≤ 1 + p.jitterFactor := by nlinarith
  refine ⟨⟨1 + p.jitterFactor * u n, hd, hf1, hf2⟩, ?_, ?_⟩
  · rw [hd]; exact mul_le_mul_of_nonneg_left hf1 hB
  · rw [hd]; exact mul_le_mul_of_nonneg_left hf2 hB

theorem jitteredDelay_bounds_witness :
    (∃ f, jitteredDelay ⟨1, 500, 1 / 5⟩ (fun _ => 1 / 2) 1 =
        (500 : ℚ) * 2 ^ 1 * f ∧
      1 - (1 / 5 : ℚ) ≤ f ∧ f ≤ 1 + (1 / 5 : ℚ)) ∧
    (500 : ℚ) * 2 ^ 1 * (1 - 1 / 5) ≤
      jitteredDelay ⟨1, 500, 1 / 5⟩ (fun _ => 1 / 2) 1 ∧
    jitteredDelay ⟨1, 500, 1 / 5⟩ (fun _ => 1 / 2) 1 ≤
      (500 : ℚ) * 2 ^ 1 * (1 + 1 / 5) := by
  have h := jitteredDelay_bounds ⟨1, 500, 1 / 5⟩ (fun _ => 1 / 2) 1
    (by norm_num) (by norm_num) (by norm_num) (by norm_num) (by norm_num)
  exact h

/-- C5: when jitterFactor = 0, the delay the executor computes for retry
index n is independent of the randomness source: it is exactly
`baseDelay * 2 ^ n` for any draw, so two runs with the same baseDelay use
the same delays. -/
theorem jitteredDelay_deterministic_of_zeroJitter
    (p : RetryPolicy) (u v : Nat → ℚ) (n : Nat) (h : p.jitterFactor = 0) :
    jitteredDelay p u n = p.baseDelay * 2 ^ n ∧
    jitteredDelay p u n = jitteredDelay p v n := by
  have hc : clampJitter (0 : ℚ) = 0 := by
    rw [clampJitter]; norm_num
  constructor <;> simp [jitteredDelay, h, hc]

theorem jitteredDelay_deterministic_witness :
    jitteredDelay ⟨3, 1000, 0⟩ (fun _ => 1) 2 = (1000 : ℚ) * 2 ^ 2 ∧
    jitteredDelay ⟨3, 1000, 0⟩ (fun _ => 1) 2 =
      jitteredDelay ⟨3, 1000, 0⟩ (fun _ => -1) 2 :=
  jitteredDelay_deterministic_of_zeroJitter ⟨3, 1000, 0⟩
    (fun _ => 1) (fun _ => -1) 2 rfl

/-- C6: for every caller-supplied jitterFactor, including values outside
`[0, 1]`, the jitter factor is clamped to `[0, 1]` before use, and every
computed jittered delay is non-negative. -/
theorem jitteredDelay_clamped_and_nonneg
    (p : RetryPolicy) (u : Nat → ℚ) (n : Nat)
    (hb : 0 ≤ p.baseDelay) (hu1 : -1 ≤ u n) (hu2 : u n ≤ 1) :
    0 ≤ clampJitter p.jitterFactor ∧ clampJitter p.jitterFactor ≤ 1 ∧
    0 ≤ jitteredDelay p u n := by
  have hc0 : 0 ≤ clampJitter p.jitterFactor := le_max_left 0 _
  have hc1 : clampJitter p.jitterFactor ≤ 1 :=
    max_le (by norm_num) (min_le_left 1 _)
  have hB : (0 : ℚ) ≤ p.baseDelay * 2 ^ n :=
    mul_nonneg hb (pow_nonneg (by norm_num) n)
  refine ⟨hc0, hc1, ?_⟩
  rw [jitteredDelay]
  have hfac : 0 ≤ 1 + clampJitter p.jitterFactor * u n := by nlinarith
  exact mul_nonneg hB hfac

theorem jitteredDelay_clamped_and_nonneg_witness :
    0 ≤ clampJitter (⟨1, 250, 7⟩ : RetryPolicy).jitterFactor ∧
    clampJitter (⟨1, 250, 7⟩ : RetryPolicy).jitterFactor ≤ 1 ∧
    0 ≤ jitteredDelay ⟨1, 250, 7⟩ (fun _ => -1) 0 := by
  have h := jitteredDelay_clamped_and_nonneg ⟨1, 250, 7⟩ (fun _ => -1) 0
    (by norm_num) (by norm_num) (by norm_num)
  exact h

/-- C8: a retry configuration that omits an option resolves to the stated
default for that option — retryAttempts 0, baseDelay 1000 ms, jitterFactor
0.1 — filled in when the policy is constructed. -/
theorem resolveRetryPolicy_defaults (o : RetryOptions) :
    (o.retryAttempts = none → (resolveRetryPolicy o).retryAttempts = 0) ∧
    (o.baseDelay = none → (resolveRetryPolicy o).baseDelay = 1000) ∧
    (o.jitterFactor = none → (resolveRetryPolicy o).jitterFactor = 1 / 10) := by
  refine ⟨fun h => ?_, fun h => ?_, fun h => ?_⟩ <;>
    simp [resolveRetryPolicy, h]

theorem resolveRetryPolicy_defaults_witness :
    (resolveRetryPolicy ⟨none, none, none⟩).retryAttempts = 0 ∧
    (resolveRetryPolicy ⟨none, none, none⟩).baseDelay = 1000 ∧
    (resolveRetryPolicy ⟨none, none, none⟩).jitterFactor = 1 / 10 := by
  have h := resolveRetryPolicy_defaults ⟨none, none, none⟩
  exact ⟨h.1 rfl, h.2.1 rfl, h.2.2 rfl⟩

/-- If the attempts at indices `m .. m + j` all fail, no cancellation is
requested during the waits after attempts `m .. m + j - 1`, cancellation is
requested during the wait after attempt `m + j`, and retries remain at that
point, the cancellable loop surfaces cancellation having made exactly
`j + 1` invocations and completed exactly `j` waits. -/
theorem retryAuxCancel_stops (p : RetryPolicy) (op : Nat → Except ε α)
    (cancel : Nat → Bool) (j : Nat) :
    ∀ m r, j < r → (∀ k, k ≤ j → ∃ e, op (m + k) = Except.error e) →
      (∀ k, k < j → cancel (m + k) = false) → cancel (m + j) = true →
      retryAuxCancel p op cancel m r =
        ⟨CancellableOutcome.cancelled, j + 1, j⟩ := by
  induction j with
  | zero =>
    intro m r hr hfail _ hc
    cases r with
    | zero => omega
    | succ r =>
      obtain ⟨e, he⟩ := hfail 0 (Nat.zero_le _)
      rw [Nat.add_zero] at he
      rw [Nat.add_zero] at hc
      simp [retryAuxCancel, he, hc]
  | succ j ih =>
    intro m r hr hfail hnc hc
    cases r with
    | zero => omega
    | succ r =>
      obtain ⟨e, he⟩ := hfail 0 (Nat.zero_le _)
      rw [Nat.add_zero] at he
      have hm : cancel m = false := by
        have := hnc 0 (Nat.succ_pos j)
        rwa [Nat.add_zero] at this
      have hrec := ih (m + 1) r (Nat.lt_of_succ_lt_succ hr)
        (fun k hk => by
          obtain ⟨e2, he2⟩ := hfail (k + 1) (Nat.succ_le_succ hk)
          exact ⟨e2, by rw [← he2]; congr 1; omega⟩)
        (fun k hk => by
          have := hnc (k + 1) (Nat.succ_lt_succ hk)
          rw [← this]; congr 1; omega)
        (by rw [← hc]; congr 1; omega)
      simp [retryAuxCancel, he, hm, hrec]

/-- C9: if cancellation is requested while the executor is suspended in
the delay between two attempts, the executor never invokes the operation
again — it stops waiting, completes no further delay, and propagates the
cancellation signal immediately. -/
theorem boundedRetryCancellable_stops_on_cancel
    (p : RetryPolicy) (op : Nat → Except ε α) (cancel : Nat → Bool) (j : Nat)
    (hj : j < p.retryAttempts)
    (hfail : ∀ k, k ≤ j → ∃ e, op k = Except.error e)
    (hnc : ∀ k, k < j → cancel k = false)
    (hc : cancel j = true) :
    (boundedRetryCancellable p op cancel).result =
      CancellableOutcome.cancelled ∧
    (boundedRetryCancellable p op cancel).invocations = j + 1 ∧
    (boundedRetryCancellable p op cancel).completedWaits = j := by
  have h := retryAuxCancel_stops p op cancel j 0 p.retryAttempts hj
    (fun k hk => by simpa using hfail k hk)
    (fun k hk => by simpa using hnc k hk)
    (by simpa using hc)
  rw [boundedRetryCancellable, h]
  exact ⟨rfl, rfl, rfl⟩

theorem boundedRetryCancellable_stops_witness :
    (boundedRetryCancellable ⟨5, 1000, 1 / 10⟩
      (fun k => (Except.error k : Except Nat Unit))
      (fun k => decide (k = 1))).result = CancellableOutcome.cancelled ∧
    (boundedRetryCancellable ⟨5, 1000, 1 / 10⟩
      (fun k => (Except.error k : Except Nat Unit))
      (fun k => decide (k = 1))).invocations = 2 ∧
    (boundedRetryCancellable ⟨5, 1000, 1 / 10⟩
      (fun k => (Except.error k : Except Nat Unit))
      (fun k => decide (k = 1))).completedWaits = 1 := by
  have h := boundedRetryCancellable_stops_on_cancel ⟨5, 1000, 1 / 10⟩
    (fun k => (Except.error k : Except Nat Unit))
    (fun k => decide (k = 1)) 1 (by decide)
    (fun k _ => ⟨k, rfl⟩) (fun k hk => by interval_cases k <;> rfl) rfl
  exact h

/-- C10: for every connection identifier s, the CRUD tool-reference array
is exactly the four references create, read, update, delete under the
`mongodb/s/` prefix, in that order, and the search-index tool-reference
array is exactly the three references create, list, drop, in that order. -/
theorem toolRefArrays_exact (s : String) :
    mongoCrudToolsRefArray s =
      ["mongodb/" ++ s ++ "/create", "mongodb/" ++ s ++ "/read",
       "mongodb/" ++ s ++ "/update", "mongodb/" ++ s ++ "/delete"] ∧
    mongoSearchIndexToolsRefArray s =
      ["mongodb/" ++ s ++ "/create", "mongodb/" ++ s ++ "/list",
       "mongodb/" ++ s ++ "/drop"] := by
  constructor <;>
    simp [mongoCrudToolsRefArray, mongoSearchIndexToolsRefArray,
      mongoToolRef, String.append_assoc]
